import Mathlib

/-!
Verification of the spill/vessel correlation engine (`fg.py`).

The program correlates polygonal spill records with AIS vessel track points:
it spatially joins track points against spill polygons (`gpd.sjoin` with the
`within` predicate), filters the joined pairs by a causal time window, and
derives analytics (per-vessel incident counts, prime suspects per spill,
vessel track reconstruction) from the result.

Embedding conventions:
* Timestamps (`pandas` datetimes) are integers, in seconds; the slider value
  `time_window_hours` is an integer number of hours and
  `timedelta(hours=w)` is `w * 3600` seconds.
* Coordinates and areas (floats in the source) are rationals.
* A polygon is represented by its point-containment test: the geometry
  library (`shapely`, behind `gpd.sjoin(..., predicate='within')`) is external
  to the repository, so the spatial predicate is carried as a `Bool`-valued
  field of the polygon itself.
* Per-record results of the external `pandas.to_datetime` parser are carried
  as `Option Int` fields of the raw input rows (`none` models `NaT`, i.e.
  `errors='coerce'` failure).
* A dataframe's column set is frame-level in pandas, so raw frames carry one
  presence flag per optional/required column, while rows carry the values.
* `st.error` followed by `return None` is modelled as `Except.error`;
  `st.stop()` in the main flow is modelled by the pipeline returning `none`.
-/

/-! ## Data model -/

/-- A polygon, represented by the external geometry library's
point-in-polygon test (`shapely`'s `within`, as invoked by `gpd.sjoin`):
`containsB x y` is `true` iff the point with coordinates `(x, y)` lies
within the polygon. -/
structure Polygon where
  containsB : Rat → Rat → Bool

/-- A normalized spill record, as produced by `load_spills_data`:
`slick_name` renamed to `spill_id` (cast to string), `area_sys` renamed to
`area_sq_km`, with a resolved `detection_date`. -/
structure SpillRecord where
  spill_id : String
  area_sq_km : Rat
  detection_date : Int
  geometry : Polygon

/-- A normalized AIS track point, as produced by `load_ais_data`:
`mmsi` cast to string, `timestamp` parsed from `BaseDateTime`, point geometry
built from `(longitude, latitude)`. `vessel_name` is `none` when the optional
column is absent or the value is missing. -/
structure TrackPoint where
  mmsi : String
  vessel_name : Option String
  timestamp : Int
  longitude : Rat
  latitude : Rat

/-- One row of `candidates_df`: a (track point, spill) pair produced by the
spatial join, i.e. the vessel columns joined with the spill columns. -/
structure IncidentCandidate where
  vessel : TrackPoint
  spill : SpillRecord

/-! ## Candidate matcher -/

/-- `timedelta(hours=h)` in seconds. -/
def timedeltaOfHours (h : Int) : Int := h * 3600

/-- The spatial predicate of `gpd.sjoin(vessels_gdf, spills_gdf,
predicate='within')`: the track point's geometry lies within the spill's
polygon. -/
def within (p : TrackPoint) (s : SpillRecord) : Bool :=
  s.geometry.containsB p.longitude p.latitude

/-- The temporal filter applied to `candidates` in `find_candidates`:
`timestamp <= detection_date` and `timestamp >= detection_date - time_delta`. -/
def temporalOk (time_delta : Int) (c : IncidentCandidate) : Bool :=
  decide (c.vessel.timestamp ≤ c.spill.detection_date) &&
    decide (c.spill.detection_date - time_delta ≤ c.vessel.timestamp)

/-- `find_candidates(spills_gdf, vessels_gdf, time_window_hours)`:
the spatial join of vessels against spills (one row per within-pair, vessel
rows outermost), filtered by the causal time window.  The source's early
return on an empty join is semantically the identity here (filtering an
empty list), and its `None`-input guard corresponds to load failure, which
the pipeline handles before this function is reached. -/
def find_candidates (spills : List SpillRecord) (vessels : List TrackPoint)
    (time_window_hours : Int) : List IncidentCandidate :=
  let candidates :=
    vessels.flatMap (fun v =>
      (spills.filter (fun s => within v s)).map (fun s => IncidentCandidate.mk v s))
  candidates.filter (temporalOk (timedeltaOfHours time_window_hours))

/-- `time_to_detection`, the derived column added to `candidates_df`:
`detection_date - timestamp`. -/
def time_to_detection (c : IncidentCandidate) : Int :=
  c.spill.detection_date - c.vessel.timestamp

/-! ## Generic list helpers (pandas primitives) -/

/-- `DataFrame.drop_duplicates(subset=...)` / `Series.unique()`: keep the
first occurrence of each key, where the key of a row is `k row`; `seen` is
the accumulator of keys already kept. -/
def dropDupBy {α κ : Type} (k : α → κ) [DecidableEq κ] :
    List κ → List α → List α
  | _, [] => []
  | seen, x :: xs =>
    if k x ∈ seen then dropDupBy k seen xs
    else x :: dropDupBy k (k x :: seen) xs

/-- The scan performed by a pandas `idxmin` over a column: fold keeping the
earliest row with the strictly smallest value of `f` seen so far. -/
def foldlMin {α : Type} (f : α → Int) (acc : α) (l : List α) : α :=
  l.foldl (fun a x => if f x < f a then x else a) acc

/-- `Series.idxmin` on a group's rows: the first row attaining the minimum of
`f` (pandas documents idxmin as returning the first occurrence of the
minimum); `none` on an empty group. -/
def idxminFirst {α : Type} (f : α → Int) : List α → Option α
  | [] => none
  | x :: xs => some (foldlMin f x xs)

/-! ## Prime suspects (`tab3` analytics) -/

/-- `gpd.sjoin` keeps the left frame's index, so every row of
`candidates_df` carries the label of the vessel row it came from, and a
track point lying within several overlapping spill polygons yields several
rows sharing one label.  This is `find_candidates` with that label (the
position of the vessel row) attached to each row; see
`find_candidates_indexed_snd` for the projection back. -/
def find_candidates_indexed (spills : List SpillRecord)
    (vessels : List TrackPoint) (time_window_hours : Int) :
    List (Nat × IncidentCandidate) :=
  (vessels.enum.flatMap (fun iv =>
    (spills.filter (fun s => within iv.2 s)).map
      (fun s => (iv.1, IncidentCandidate.mk iv.2 s)))).filter
    (fun p => temporalOk (timedeltaOfHours time_window_hours) p.2)

/-- The distinct `spill_id` keys of `candidates_df`, in first-seen order.
(pandas `groupby` presents the keys in ascending order; that reordering
only permutes the rows of the resulting table and none of the verified
properties depend on it.) -/
def spillIdsOf (candidates : List IncidentCandidate) : List String :=
  dropDupBy id [] (candidates.map (fun c => c.spill.spill_id))

/-- `prime_suspects_df = candidates_df.loc[prime_suspects_idx]`: per spill
id (groupby key), `idxmin` yields the index label of the first row
attaining the group's minimum `time_to_detection`, and the label-based
`.loc` lookup then returns every candidate row bearing that label — more
than one row when the label is duplicated by overlapping spill matches. -/
def prime_suspects_df (rows : List (Nat × IncidentCandidate)) :
    List (Nat × IncidentCandidate) :=
  (spillIdsOf (rows.map Prod.snd)).flatMap (fun sid =>
    match idxminFirst (fun p => time_to_detection p.2)
        (rows.filter (fun p => p.2.spill.spill_id == sid)) with
    | some p => rows.filter (fun q => q.1 == p.1)
    | none => [])

/-! ## Vessel leaderboard (`tab1` analytics) -/

/-- `unique_incidents = candidates_df.drop_duplicates(subset=['mmsi',
'spill_id'])`: first row kept per (mmsi, spill_id) pair. -/
def unique_incidents (candidates : List IncidentCandidate) :
    List IncidentCandidate :=
  dropDupBy (fun c => (c.vessel.mmsi, c.spill.spill_id)) [] candidates

/-- One row of `groupby('mmsi').size().reset_index(name='incident_count')`. -/
structure CountRow where
  mmsi : String
  incident_count : Nat

/-- One row of the `ship_incident_counts` leaderboard after the optional
name merge: `vessel_name` is `none` before/without the merge and
`some v` once a name row (itself optional-valued) was joined. -/
structure LeaderRow where
  mmsi : String
  incident_count : Nat
  vessel_name : Option (Option String)

/-- The distinct `mmsi` keys of `unique_incidents`, in the ascending order
`groupby` presents them. -/
def mmsiKeysOf (ui : List IncidentCandidate) : List String :=
  List.insertionSort (fun a b => a ≤ b)
    (dropDupBy id [] (ui.map (fun c => c.vessel.mmsi)))

/-- `unique_incidents.groupby('mmsi').size().reset_index(name='incident_count')`. -/
def groupCounts (ui : List IncidentCandidate) : List CountRow :=
  (mmsiKeysOf ui).map
    (fun m => CountRow.mk m (ui.countP (fun c => c.vessel.mmsi == m)))

/-- `.sort_values('incident_count', ascending=False)` (stable). -/
def sortByCountDesc (rows : List CountRow) : List CountRow :=
  List.insertionSort (fun a b => b.incident_count ≤ a.incident_count) rows

/-- `ship_names = unique_incidents[['mmsi', 'vessel_name']].drop_duplicates()`:
note the deduplication key is the whole (mmsi, vessel_name) pair, so one mmsi
can retain several rows when it occurs with several names. -/
def ship_names (ui : List IncidentCandidate) : List (String × Option String) :=
  dropDupBy id [] (ui.map (fun c => (c.vessel.mmsi, c.vessel.vessel_name)))

/-- `pd.merge(ship_incident_counts, ship_names, on='mmsi', how='left')`:
each count row pairs with every name row sharing its mmsi; with no match the
row is kept once with a null name. -/
def merge_left_names (counts : List CountRow)
    (names : List (String × Option String)) : List LeaderRow :=
  counts.flatMap (fun r =>
    let ms := names.filter (fun n => n.1 == r.mmsi)
    if ms.isEmpty then [LeaderRow.mk r.mmsi r.incident_count none]
    else ms.map (fun n => LeaderRow.mk r.mmsi r.incident_count (some n.2)))

/-- `ship_incident_counts`: group `unique_incidents` by mmsi, count, sort
descending by count, and (when the `vessel_name` column exists) left-merge
the deduplicated (mmsi, vessel_name) pairs back on. -/
def ship_incident_counts (candidates : List IncidentCandidate)
    (hasNameCol : Bool) : List LeaderRow :=
  let ui := unique_incidents candidates
  let counts := sortByCountDesc (groupCounts ui)
  if hasNameCol then merge_left_names counts (ship_names ui)
  else counts.map (fun r => LeaderRow.mk r.mmsi r.incident_count none)

/-! ## Raw inputs and normalizers

The two loaders read external files through `geopandas`/`pandas`; what the
repository's own code does is check the column set, rename, resolve the
timestamp, drop unparseable rows and fail on emptiness.  The external
parser results (`pd.to_datetime` under `errors='coerce'`) are carried as
`Option Int` oracle fields on the raw rows; a frame-level flag per column
models `'col' in df.columns`.  CRS normalization (`set_crs`/`to_crs`) is a
geometry-library transformation that leaves our abstract polygons as
given, so it is not represented. -/

/-- The failure modes of a loader: `st.error` + `return None` in the
source, tagged by the kind of message emitted. -/
inductive LoadError
  | schemaError (missing : List String)
  | emptyDataset

/-- One raw GeoJSON spill feature.  `slick_name` is the identifier already
cast to string (`gdf['spill_id'].astype(str)`); `dateTimeParsed` is the
result of `pd.to_datetime(date + ' ' + time, errors='coerce')` for this
row; `idParsed` the result of `pd.to_datetime(spill_id,
format='%Y-%m-%d_%H:%M:%S', errors='coerce')`. -/
structure RawSpillRow where
  slick_name : String
  area_sys : Rat
  dateTimeParsed : Option Int
  idParsed : Option Int
  geometry : Polygon

/-- A raw spill frame: per-column presence flags plus the rows. -/
structure RawSpills where
  hasSlickName : Bool
  hasAreaSys : Bool
  hasDateCol : Bool
  hasTimeCol : Bool
  rows : List RawSpillRow

/-- The column list of the raw spill frame. -/
def RawSpills.columns (f : RawSpills) : List String :=
  (if f.hasSlickName then ["slick_name"] else []) ++
    (if f.hasAreaSys then ["area_sys"] else []) ++
    (if f.hasDateCol then ["date"] else []) ++
    (if f.hasTimeCol then ["time"] else [])

/-- `required_cols` of `load_spills_data`. -/
def spillsRequiredCols : List String := ["slick_name", "area_sys"]

/-- The branch on `'date' in gdf.columns and 'time' in gdf.columns`:
with both columns present the detection date of every row comes from the
date+time parse, otherwise from the identifier-pattern parse. -/
def spillResolve (f : RawSpills) (r : RawSpillRow) : Option Int :=
  if f.hasDateCol && f.hasTimeCol then r.dateTimeParsed else r.idParsed

/-- `missing = [col for col in required_cols if col not in gdf.columns]`. -/
def spillsMissing (f : RawSpills) : List String :=
  spillsRequiredCols.filter (fun c => !(f.columns.contains c))

/-- The rows surviving `dropna(subset=['detection_date'])`, already turned
into `SpillRecord`s (rename + resolved timestamp). -/
def spillsKept (f : RawSpills) : List SpillRecord :=
  f.rows.filterMap (fun r =>
    (spillResolve f r).map (fun t =>
      SpillRecord.mk r.slick_name r.area_sys t r.geometry))

/-- `load_spills_data`: schema check, rename, timestamp resolution, drop of
unparseable rows (their count is the reported warning figure, returned
here as the second component), failure when nothing survives. -/
def load_spills_data (f : RawSpills) :
    Except LoadError (List SpillRecord × Nat) :=
  if (spillsMissing f).isEmpty then
    if (spillsKept f).isEmpty then Except.error LoadError.emptyDataset
    else Except.ok (spillsKept f,
      f.rows.countP (fun r => (spillResolve f r).isNone))
  else Except.error (LoadError.schemaError (spillsMissing f))

/-- One raw AIS CSV row.  `mmsi` is already string-cast
(`df['mmsi'].astype(str)`); `latitude`/`longitude` are `none` when the cell
is missing (NaN); `baseDateTimeParsed` is the result of
`pd.to_datetime(BaseDateTime, errors='coerce')` for this row. -/
structure RawAisRow where
  mmsi : String
  latitude : Option Rat
  longitude : Option Rat
  baseDateTimeParsed : Option Int
  vessel_name : Option String

/-- A raw AIS frame: per-column presence flags plus the rows. -/
structure RawAis where
  hasMmsi : Bool
  hasLatitude : Bool
  hasLongitude : Bool
  hasBaseDateTime : Bool
  hasVesselName : Bool
  rows : List RawAisRow

/-- The column list of the raw AIS frame. -/
def RawAis.columns (f : RawAis) : List String :=
  (if f.hasMmsi then ["mmsi"] else []) ++
    (if f.hasLatitude then ["latitude"] else []) ++
    (if f.hasLongitude then ["longitude"] else []) ++
    (if f.hasBaseDateTime then ["BaseDateTime"] else []) ++
    (if f.hasVesselName then ["vessel_name"] else [])

/-- `required_cols` of `load_ais_data`. -/
def aisRequiredCols : List String :=
  ["mmsi", "latitude", "longitude", "BaseDateTime"]

/-- `load_ais_data`: schema check, timestamp parse, drop of rows missing
timestamp or coordinates (`dropna(subset=['timestamp', 'latitude',
'longitude'])`), geometry from (longitude, latitude).  No emptiness
check here: the source returns a possibly empty frame. -/
def aisMissing (f : RawAis) : List String :=
  aisRequiredCols.filter (fun c => !(f.columns.contains c))

def aisKept (f : RawAis) : List TrackPoint :=
  f.rows.filterMap (fun r =>
    match r.baseDateTimeParsed, r.latitude, r.longitude with
    | some t, some la, some lo =>
      some (TrackPoint.mk r.mmsi
        (if f.hasVesselName then r.vessel_name else none) t lo la)
    | _, _, _ => none)

def load_ais_data (f : RawAis) : Except LoadError (List TrackPoint) :=
  if (aisMissing f).isEmpty then Except.ok (aisKept f)
  else Except.error (LoadError.schemaError (aisMissing f))

/-- The main flow up to the matcher: load both inputs, `st.stop()` (here:
`none`) when either load failed or produced an empty frame, otherwise run
`find_candidates`. -/
def pipeline (fs : RawSpills) (fa : RawAis) (w : Int) :
    Option (List IncidentCandidate) :=
  match load_spills_data fs, load_ais_data fa with
  | Except.ok (spills, _), Except.ok tracks =>
    if spills.isEmpty || tracks.isEmpty then none
    else some (find_candidates spills tracks w)
  | _, _ => none

/-! ## Track reconstruction (`plot_vessel_tracks`) -/

/-- `.sort_values('timestamp')` on a vessel's points (stable, ascending). -/
def sortByTimestamp (l : List TrackPoint) : List TrackPoint :=
  List.insertionSort (fun a b => a.timestamp ≤ b.timestamp) l

/-- One GeoJSON LineString feature emitted by `plot_vessel_tracks`
(the `strftime` formatting of the two times is presentation-side and not
represented). -/
structure TrackFeature where
  mmsi : String
  coordinates : List (Rat × Rat)
  vessel_name : Option String
  start_time : Int
  end_time : Int

/-- `Series.min()` over the timestamps of a nonempty point list (the `0`
for the empty list is never reached: the caller requires at least two
points). -/
def minTimestamp : List TrackPoint → Int
  | [] => 0
  | p :: ps => ps.foldl (fun a q => min a q.timestamp) p.timestamp

/-- `Series.max()`, see `minTimestamp`. -/
def maxTimestamp : List TrackPoint → Int
  | [] => 0
  | p :: ps => ps.foldl (fun a q => max a q.timestamp) p.timestamp

/-- `candidates_df['mmsi'].unique()`: first-seen order, no duplicates. -/
def candidateMmsis (candidates : List IncidentCandidate) : List String :=
  dropDupBy id [] (candidates.map (fun c => c.vessel.mmsi))

/-- The body of the loop in `plot_vessel_tracks` for one candidate mmsi:
all of the vessel's points from the full track set, sorted by timestamp;
a LineString feature when there are at least two points, nothing
otherwise. -/
def trackFeatureFor (vessels : List TrackPoint) (hasNameCol : Bool)
    (m : String) : Option TrackFeature :=
  let pts := sortByTimestamp (vessels.filter (fun v => v.mmsi == m))
  if 1 < pts.length then
    some (TrackFeature.mk m (pts.map (fun p => (p.longitude, p.latitude)))
      (if hasNameCol then pts.head?.bind (fun p => p.vessel_name)
       else some ("MMSI: " ++ m))
      (minTimestamp pts) (maxTimestamp pts))
  else none

/-- `plot_vessel_tracks(vessels_gdf, candidates_df)` with the frame-level
presence of the `vessel_name` column passed explicitly. -/
def plot_vessel_tracks (vessels : List TrackPoint)
    (candidates : List IncidentCandidate) (hasNameCol : Bool) :
    List TrackFeature :=
  (candidateMmsis candidates).filterMap (trackFeatureFor vessels hasNameCol)

/-! ## Example inputs used by the witnesses -/

/-- Example geometry for witnesses: the axis-aligned rectangle
`[0, 2] × [0, 2]` (boundary inclusive), given by its containment test. -/
def rect2 : Polygon :=
  Polygon.mk (fun x y =>
    decide (0 ≤ x) && decide (x ≤ 2) && decide (0 ≤ y) && decide (y ≤ 2))

/-- Example spill for witnesses: detected at 10:00 (36000 s). -/
def exSpill : SpillRecord := SpillRecord.mk "2024-01-01_10:00:00" 5 36000 rect2

/-- Example track point for witnesses: inside `rect2` at 09:00 (32400 s). -/
def exPoint : TrackPoint := TrackPoint.mk "111000111" (some "TESTSHIP") 32400 1 1

/-- Track point 3 hours before detection (07:00), vessel A. -/
def exPointA : TrackPoint := TrackPoint.mk "A" (some "ALPHA") 25200 1 1

/-- Track point 1 hour before detection (09:00), vessel B. -/
def exPointB : TrackPoint := TrackPoint.mk "B" (some "BRAVO") 32400 1 1

/-- Track point 5 hours before detection (05:00), vessel C. -/
def exPointC : TrackPoint := TrackPoint.mk "C" (some "CHARLIE") 18000 1 1

/-- A second and third spill, distinct ids, for the leaderboard examples. -/
def exSpillA : SpillRecord := SpillRecord.mk "SPILL-A" 1 36000 rect2

/-- See `exSpillA`. -/
def exSpillB : SpillRecord := SpillRecord.mk "SPILL-B" 2 36000 rect2

/-- One vessel (mmsi "1") recorded under two different names, linked to two
different spills: the source data ambiguity that makes the name merge fan
out. -/
def exC5 : List IncidentCandidate :=
  [IncidentCandidate.mk (TrackPoint.mk "1" (some "NAME-X") 32400 1 1) exSpillA,
   IncidentCandidate.mk (TrackPoint.mk "1" (some "NAME-Y") 32400 1 1) exSpillB]

/-- Like `exC5` but with a consistent name per mmsi. -/
def exC5ok : List IncidentCandidate :=
  [IncidentCandidate.mk (TrackPoint.mk "1" (some "NAME-X") 32400 1 1) exSpillA,
   IncidentCandidate.mk (TrackPoint.mk "1" (some "NAME-X") 32400 1 1) exSpillB]

/-- The right half `[1, 2] × [0, 2]` of `rect2`, overlapping it. -/
def rectRight : Polygon :=
  Polygon.mk (fun x y =>
    decide (1 ≤ x) && decide (x ≤ 2) && decide (0 ≤ y) && decide (y ≤ 2))

/-- A spill over `rectRight`, overlapping `exSpillA`'s polygon. -/
def exSpillBR : SpillRecord := SpillRecord.mk "SPILL-B" 2 36000 rectRight

/-- Track point at (1, 1), inside both polygons, 2 h before detection. -/
def exPointBoth : TrackPoint := TrackPoint.mk "P1" (some "PONE") 28800 1 1

/-- Track point at (0, 0), inside only `exSpillA`, 1 h before detection. -/
def exPointLeft : TrackPoint := TrackPoint.mk "P2" (some "PTWO") 32400 0 0

/-- The labelled candidate rows of the overlapping-spills scenario: vessel
row 0 matches both spills (duplicate label), vessel row 1 only the
first. -/
def exOverlapRows : List (Nat × IncidentCandidate) :=
  find_candidates_indexed [exSpillA, exSpillBR] [exPointBoth, exPointLeft] 24

/-- The {3h, 1h, 5h} candidate rows of one spill, with distinct vessel
labels. -/
def exIdx315 : List (Nat × IncidentCandidate) :=
  [(0, IncidentCandidate.mk exPointA exSpill),
   (1, IncidentCandidate.mk exPointB exSpill),
   (2, IncidentCandidate.mk exPointC exSpill)]

/-- Raw spill frame missing the `slick_name` column. -/
def exBadSpills : RawSpills := RawSpills.mk false true true true []

/-- Raw AIS frame missing the `mmsi` column. -/
def exBadAis : RawAis := RawAis.mk false true true true true []

/-- A raw spill frame with both `date` and `time` columns: the first row's
date+time string parses, the second row's does not although its identifier
embeds a valid timestamp. -/
def exRawSpills : RawSpills :=
  RawSpills.mk true true true true
    [RawSpillRow.mk "2024-01-01_10:00:00" 5 (some 36000) none rect2,
     RawSpillRow.mk "2024-01-01_11:00:00" 2 none (some 39600) rect2]

/-- Normalized tracks for the reconstruction witness: two points for vessel
"7" (out of timestamp order) and a single point for vessel "8". -/
def exVessels9 : List TrackPoint :=
  [TrackPoint.mk "7" (some "SEVEN") 36000 2 2,
   TrackPoint.mk "7" (some "SEVEN") 32400 1 1,
   TrackPoint.mk "8" (some "EIGHT") 32400 1 1]

/-- Candidates naming both vessels of `exVessels9`. -/
def exCandidates9 : List IncidentCandidate :=
  [IncidentCandidate.mk (TrackPoint.mk "7" (some "SEVEN") 32400 1 1) exSpill,
   IncidentCandidate.mk (TrackPoint.mk "8" (some "EIGHT") 32400 1 1) exSpill]

/-! ## Helper lemmas -/

theorem mem_of_mem_dropDupBy {α κ : Type} (k : α → κ) [DecidableEq κ] :
    ∀ (seen : List κ) (l : List α) (y : α), y ∈ dropDupBy k seen l → y ∈ l
  | _, [], _, h => by simp [dropDupBy] at h
  | seen, x :: xs, y, h => by
    by_cases hx : k x ∈ seen
    · rw [dropDupBy, if_pos hx] at h
      exact List.mem_cons_of_mem x (mem_of_mem_dropDupBy k seen xs y h)
    · rw [dropDupBy, if_neg hx] at h
      rcases List.mem_cons.mp h with h | h
      · exact h ▸ List.Mem.head _
      · exact List.mem_cons_of_mem x (mem_of_mem_dropDupBy k _ xs y h)

theorem dropDupBy_covers {α κ : Type} (k : α → κ) [DecidableEq κ] :
    ∀ (seen : List κ) (l : List α) (x : α), x ∈ l → k x ∉ seen →
      ∃ y ∈ dropDupBy k seen l, k y = k x
  | _, [], _, hx, _ => by simp at hx
  | seen, z :: zs, x, hx, hseen => by
    by_cases hz : k z ∈ seen
    · rw [dropDupBy, if_pos hz]
      rcases List.mem_cons.mp hx with h | h
      · exact absurd (h ▸ hseen : k z ∉ seen) (not_not_intro hz)
      · exact dropDupBy_covers k seen zs x h hseen
    · rw [dropDupBy, if_neg hz]
      by_cases hxz : k x = k z
      · exact ⟨z, List.Mem.head _, hxz.symm⟩
      · rcases List.mem_cons.mp hx with h | h
        · exact absurd (congrArg k h) hxz
        · obtain ⟨y, hy, hky⟩ := dropDupBy_covers k (k z :: seen) zs x h
            (by simp [hxz, hseen])
          exact ⟨y, List.mem_cons_of_mem z hy, hky⟩

theorem dropDupBy_key_not_seen {α κ : Type} (k : α → κ) [DecidableEq κ] :
    ∀ (seen : List κ) (l : List α) (y : α), y ∈ dropDupBy k seen l →
      k y ∉ seen
  | _, [], _, h => by simp [dropDupBy] at h
  | seen, x :: xs, y, h => by
    by_cases hx : k x ∈ seen
    · rw [dropDupBy, if_pos hx] at h
      exact dropDupBy_key_not_seen k seen xs y h
    · rw [dropDupBy, if_neg hx] at h
      rcases List.mem_cons.mp h with h | h
      · exact h ▸ hx
      · have := dropDupBy_key_not_seen k (k x :: seen) xs y h
        exact fun hmem => this (List.mem_cons_of_mem _ hmem)

theorem dropDupBy_pairwise_keys {α κ : Type} (k : α → κ) [DecidableEq κ] :
    ∀ (seen : List κ) (l : List α),
      (dropDupBy k seen l).Pairwise (fun a b => k a ≠ k b)
  | _, [] => List.Pairwise.nil
  | seen, x :: xs => by
    by_cases hx : k x ∈ seen
    · rw [dropDupBy, if_pos hx]
      exact dropDupBy_pairwise_keys k seen xs
    · rw [dropDupBy, if_neg hx]
      refine List.Pairwise.cons ?_ (dropDupBy_pairwise_keys k (k x :: seen) xs)
      intro b hb hkb
      exact dropDupBy_key_not_seen k (k x :: seen) xs b hb (hkb ▸ List.Mem.head _)

theorem foldlMin_spec {α : Type} (f : α → Int) (l : List α) :
    ∀ acc : α,
      (∀ x ∈ l, f (foldlMin f acc l) ≤ f x) ∧
        f (foldlMin f acc l) ≤ f acc ∧
        (foldlMin f acc l = acc ∨
          (f (foldlMin f acc l) < f acc ∧
            ∃ pre suf, l = pre ++ foldlMin f acc l :: suf ∧
              ∀ x ∈ pre, f (foldlMin f acc l) < f x)) := by
  induction l with
  | nil => intro acc; exact ⟨by simp, le_refl _, Or.inl rfl⟩
  | cons x xs ih =>
    intro acc
    by_cases hx : f x < f acc
    · have hfold : foldlMin f acc (x :: xs) = foldlMin f x xs := by
        simp [foldlMin, List.foldl_cons, if_pos hx]
      rw [hfold]
      obtain ⟨ihmin, ihacc, ihcase⟩ := ih x
      refine ⟨?_, le_of_lt (lt_of_le_of_lt ihacc hx), Or.inr ⟨lt_of_le_of_lt ihacc hx, ?_⟩⟩
      · intro y hy
        rcases List.mem_cons.mp hy with h | h
        · exact h ▸ ihacc
        · exact ihmin y h
      · rcases ihcase with heq | ⟨hlt, pre, suf, hsplit, hpre⟩
        · refine ⟨[], xs, ?_, by simp⟩
          rw [heq]
          rfl
        · refine ⟨x :: pre, suf, ?_, ?_⟩
          · rw [List.cons_append, ← hsplit]
          · intro y hy
            rcases List.mem_cons.mp hy with h | h
            · subst h
              exact hlt
            · exact hpre y h
    · have hfold : foldlMin f acc (x :: xs) = foldlMin f acc xs := by
        simp [foldlMin, List.foldl_cons, if_neg hx]
      rw [hfold]
      obtain ⟨ihmin, ihacc, ihcase⟩ := ih acc
      have hax : f acc ≤ f x := le_of_not_lt hx
      refine ⟨?_, ihacc, ?_⟩
      · intro y hy
        rcases List.mem_cons.mp hy with h | h
        · exact h ▸ le_trans ihacc hax
        · exact ihmin y h
      · rcases ihcase with heq | ⟨hlt, pre, suf, hsplit, hpre⟩
        · exact Or.inl heq
        · refine Or.inr ⟨hlt, x :: pre, suf, ?_, ?_⟩
          · rw [List.cons_append, ← hsplit]
          · intro y hy
            rcases List.mem_cons.mp hy with h | h
            · exact h ▸ lt_of_lt_of_le hlt hax
            · exact hpre y h

theorem idxminFirst_spec {α : Type} (f : α → Int) (l : List α) (c : α)
    (h : idxminFirst f l = some c) :
    c ∈ l ∧ (∀ x ∈ l, f c ≤ f x) ∧
      ∃ pre suf, l = pre ++ c :: suf ∧ ∀ x ∈ pre, f c < f x := by
  match l with
  | [] => simp [idxminFirst] at h
  | x :: xs =>
    rw [idxminFirst, Option.some.injEq] at h
    obtain ⟨hmin, hacc, hcase⟩ := foldlMin_spec f xs x
    rw [h] at hmin hacc hcase
    have hsplit : ∃ pre suf, x :: xs = pre ++ c :: suf ∧ ∀ y ∈ pre, f c < f y := by
      rcases hcase with heq | ⟨hlt, pre, suf, hs, hpre⟩
      · exact ⟨[], xs, by rw [heq]; rfl, by simp⟩
      · refine ⟨x :: pre, suf, by rw [List.cons_append, ← hs], ?_⟩
        intro y hy
        rcases List.mem_cons.mp hy with hyx | hyp
        · exact hyx ▸ hlt
        · exact hpre y hyp
    obtain ⟨pre, suf, hs, hpre⟩ := hsplit
    refine ⟨?_, ?_, pre, suf, hs, hpre⟩
    · rw [hs]
      exact List.mem_append_right pre (List.Mem.head _)
    · intro y hy
      rcases List.mem_cons.mp hy with hyx | hyp
      · exact hyx ▸ hacc
      · exact hmin y hyp

theorem idxmin_group_spill_id (rows : List (Nat × IncidentCandidate))
    (sid : String) (p : Nat × IncidentCandidate)
    (h : idxminFirst (fun p => time_to_detection p.2)
        (rows.filter (fun q => q.2.spill.spill_id == sid)) = some p) :
    p.2.spill.spill_id = sid := by
  have hmem := (idxminFirst_spec (fun p => time_to_detection p.2) _ p h).1
  have := List.mem_filter.mp hmem
  exact of_decide_eq_true (by simpa using this.2)

theorem countP_filterMap_key_one {κ β : Type} [DecidableEq κ] [BEq κ] [LawfulBEq κ]
    (key : β → κ) (g : κ → Option β)
    (hg : ∀ s c, g s = some c → key c = s) :
    ∀ (l : List κ), l.Pairwise (· ≠ ·) → ∀ a ∈ l, ∀ c, g a = some c →
      (l.filterMap g).countP (fun r => key r == a) = 1 := by
  intro l
  induction l with
  | nil => intro _ a ha; simp at ha
  | cons s l' ih =>
    intro hpw a ha c hc
    have hpw' := List.pairwise_cons.mp hpw
    rcases List.mem_cons.mp ha with has | hal
    · subst has
      rw [List.filterMap_cons, hc, List.countP_cons]
      have hkey : (key c == a) = true := by
        rw [beq_iff_eq]
        exact hg a c hc
      have hzero : (l'.filterMap g).countP (fun r => key r == a) = 0 := by
        rw [List.countP_eq_zero]
        intro r hr
        obtain ⟨b, hb, hgb⟩ := List.mem_filterMap.mp hr
        have : key r = b := hg b r hgb
        have hba : b ≠ a := fun hba => hpw'.1 a (hba ▸ hb) rfl
        simp [this, hba]
      simp [hkey, hzero]
    · have has : a ≠ s := fun h => hpw'.1 a hal h.symm
      rw [List.filterMap_cons]
      cases hgs : g s with
      | none => exact ih hpw'.2 a hal c hc
      | some cs =>
        rw [List.countP_cons]
        have : (key cs == a) = false := by
          rw [beq_eq_false_iff_ne, hg s cs hgs]
          exact fun h => has h.symm
        rw [this]
        simpa using ih hpw'.2 a hal c hc

theorem spillIdsOf_nodup (candidates : List IncidentCandidate) :
    (spillIdsOf candidates).Pairwise (· ≠ ·) :=
  dropDupBy_pairwise_keys id [] _

/-- Membership in the matcher's output, characterized. -/
theorem mem_find_candidates (spills : List SpillRecord) (vessels : List TrackPoint)
    (w : Int) (c : IncidentCandidate) :
    c ∈ find_candidates spills vessels w ↔
      c.vessel ∈ vessels ∧ c.spill ∈ spills ∧ within c.vessel c.spill = true ∧
        c.vessel.timestamp ≤ c.spill.detection_date ∧
        c.spill.detection_date - timedeltaOfHours w ≤ c.vessel.timestamp := by
  obtain ⟨p, s⟩ := c
  simp only [find_candidates, List.mem_filter, List.mem_flatMap, List.mem_map,
    temporalOk, Bool.and_eq_true, decide_eq_true_eq]
  constructor
  · rintro ⟨⟨v, hv, s', hs', heq⟩, ht1, ht2⟩
    cases heq
    exact ⟨hv, hs'.1, hs'.2, ht1, ht2⟩
  · rintro ⟨hv, hs, hw, ht1, ht2⟩
    exact ⟨⟨p, hv, s, ⟨hs, hw⟩, rfl⟩, ht1, ht2⟩

/-! ## Claim theorems -/

/-- Claim C1: for every `TrackPoint` `p` and `SpillRecord` `s` drawn from the
inputs, an `IncidentCandidate` row for `(p, s)` appears in the output of the
matcher iff `p`'s point geometry lies within `s`'s polygon and
`timestamp <= detection_date` and `timestamp >= detection_date - window`. -/
theorem matcher_iff_spatial_and_temporal (spills : List SpillRecord)
    (vessels : List TrackPoint) (w : Int) (p : TrackPoint) (s : SpillRecord)
    (hp : p ∈ vessels) (hs : s ∈ spills) :
    IncidentCandidate.mk p s ∈ find_candidates spills vessels w ↔
      within p s = true ∧ p.timestamp ≤ s.detection_date ∧
        s.detection_date - timedeltaOfHours w ≤ p.timestamp := by
  rw [mem_find_candidates]
  constructor
  · rintro ⟨-, -, h1, h2, h3⟩
    exact ⟨h1, h2, h3⟩
  · rintro ⟨h1, h2, h3⟩
    exact ⟨hp, hs, h1, h2, h3⟩

/-- Witness for claim C1's theorem at a concrete inside-the-polygon,
inside-the-window input. -/
theorem matcher_iff_spatial_and_temporal_witness :
    exPoint ∈ [exPoint] ∧ exSpill ∈ [exSpill] ∧
      (IncidentCandidate.mk exPoint exSpill ∈ find_candidates [exSpill] [exPoint] 24 ↔
        within exPoint exSpill = true ∧
          exPoint.timestamp ≤ exSpill.detection_date ∧
          exSpill.detection_date - timedeltaOfHours 24 ≤ exPoint.timestamp) :=
  ⟨List.Mem.head _, List.Mem.head _,
    matcher_iff_spatial_and_temporal [exSpill] [exPoint] 24 exPoint exSpill
      (List.Mem.head _) (List.Mem.head _)⟩

/-- Claim C2: every `IncidentCandidate` produced by the matcher satisfies
`0 <= detection_date - timestamp <= window`; no candidate has
`timestamp > detection_date`, and `time_to_detection` is non-negative. -/
theorem causality_invariant (spills : List SpillRecord) (vessels : List TrackPoint)
    (w : Int) (c : IncidentCandidate) (hc : c ∈ find_candidates spills vessels w) :
    0 ≤ time_to_detection c ∧ time_to_detection c ≤ timedeltaOfHours w ∧
      c.vessel.timestamp ≤ c.spill.detection_date := by
  obtain ⟨-, -, -, h1, h2⟩ := (mem_find_candidates spills vessels w c).mp hc
  refine ⟨?_, ?_, h1⟩ <;> unfold time_to_detection <;> omega

/-- Witness for claim C2's theorem at a concrete matched input. -/
theorem causality_invariant_witness :
    (IncidentCandidate.mk exPoint exSpill ∈ find_candidates [exSpill] [exPoint] 24) ∧
      (0 ≤ time_to_detection (IncidentCandidate.mk exPoint exSpill) ∧
        time_to_detection (IncidentCandidate.mk exPoint exSpill) ≤ timedeltaOfHours 24 ∧
        exPoint.timestamp ≤ exSpill.detection_date) := by
  have hc : IncidentCandidate.mk exPoint exSpill ∈ find_candidates [exSpill] [exPoint] 24 := by
    have : find_candidates [exSpill] [exPoint] 24 = [IncidentCandidate.mk exPoint exSpill] := by
      rfl
    rw [this]
    exact List.Mem.head _
  exact ⟨hc, causality_invariant [exSpill] [exPoint] 24 _ hc⟩

/-- Claim C3: for fixed inputs and window widths `w1 <= w2`, every candidate
produced with window `w1` is also produced with window `w2`, and the candidate
set size is monotonically non-decreasing in the window width. -/
theorem window_monotone (spills : List SpillRecord) (vessels : List TrackPoint)
    (w1 w2 : Int) (hw : w1 ≤ w2) :
    (∀ c ∈ find_candidates spills vessels w1, c ∈ find_candidates spills vessels w2) ∧
      (find_candidates spills vessels w1).length ≤
        (find_candidates spills vessels w2).length := by
  have himp : ∀ c : IncidentCandidate,
      temporalOk (timedeltaOfHours w1) c = true →
        temporalOk (timedeltaOfHours w2) c = true := by
    intro c h
    simp only [temporalOk, Bool.and_eq_true, decide_eq_true_eq] at h ⊢
    unfold timedeltaOfHours at h ⊢
    omega
  constructor
  · intro c hc
    rw [mem_find_candidates] at hc ⊢
    obtain ⟨h1, h2, h3, h4, h5⟩ := hc
    refine ⟨h1, h2, h3, h4, ?_⟩
    unfold timedeltaOfHours at h5 ⊢
    omega
  · exact List.Sublist.length_le
      (List.monotone_filter_right _ himp)

/-- Witness for claim C3's theorem at a concrete pair of windows. -/
theorem window_monotone_witness :
    ((1 : Int) ≤ 24) ∧
      ((∀ c ∈ find_candidates [exSpill] [exPoint] 1, c ∈ find_candidates [exSpill] [exPoint] 24) ∧
        (find_candidates [exSpill] [exPoint] 1).length ≤
          (find_candidates [exSpill] [exPoint] 24).length) :=
  ⟨by decide, window_monotone [exSpill] [exPoint] 1 24 (by decide)⟩

/-- Claim C6: the matcher on zero spill records or zero track points returns
the empty candidate sequence (and, being a total function, raises no error). -/
theorem matcher_empty_inputs (spills : List SpillRecord) (vessels : List TrackPoint)
    (w : Int) :
    find_candidates spills [] w = [] ∧ find_candidates [] vessels w = [] := by
  constructor
  · rfl
  · simp [find_candidates]

theorem length_le_one_of_pairwise_keys {α κ : Type} (k : α → κ) (i : κ)
    (l : List α) (hpw : l.Pairwise (fun a b => k a ≠ k b))
    (hall : ∀ a ∈ l, k a = i) : l.length ≤ 1 := by
  match l with
  | [] => simp
  | [a] => simp
  | a :: b :: t =>
    exact absurd ((hall a (List.Mem.head _)).trans
        (hall b (List.mem_cons_of_mem _ (List.Mem.head _))).symm)
      ((List.pairwise_cons.mp hpw).1 b (List.Mem.head _))

theorem filter_key_eq_singleton {α κ : Type} [BEq κ] [LawfulBEq κ]
    (k : α → κ) (l : List α)
    (hpw : l.Pairwise (fun a b => k a ≠ k b)) (q : α) (hq : q ∈ l) :
    l.filter (fun x => k x == k q) = [q] := by
  have hmem : q ∈ l.filter (fun x => k x == k q) :=
    List.mem_filter.mpr ⟨hq, by simp⟩
  have hall : ∀ a ∈ l.filter (fun x => k x == k q), k a = k q := by
    intro a ha
    have := (List.mem_filter.mp ha).2
    simpa using this
  have hle := length_le_one_of_pairwise_keys k (k q)
    (l.filter (fun x => k x == k q)) (List.Pairwise.filter _ hpw) hall
  have hge := List.length_pos_of_mem hmem
  obtain ⟨a, ha⟩ := List.length_eq_one.mp (Nat.le_antisymm hle hge)
  rw [ha] at hmem ⊢
  rw [List.mem_singleton.mp hmem]

theorem flatMap_eq_filterMap {κ β : Type} (F : κ → List β) (g : κ → Option β) :
    ∀ l : List κ, (∀ a ∈ l, F a = (g a).toList) →
      l.flatMap F = l.filterMap g := by
  intro l
  induction l with
  | nil => intro _; rfl
  | cons a l ih =>
    intro h
    rw [List.flatMap_cons, List.filterMap_cons, h a (List.Mem.head _),
      ih (fun b hb => h b (List.mem_cons_of_mem _ hb))]
    cases g a <;> rfl

theorem flatMap_enumFrom_snd {α β : Type} (H : α → List β) :
    ∀ (l : List α) (n : Nat),
      (List.enumFrom n l).flatMap (fun iv => H iv.2) = l.flatMap H := by
  intro l
  induction l with
  | nil => intro n; rfl
  | cons x xs ih =>
    intro n
    have he : List.enumFrom n (x :: xs) = (n, x) :: List.enumFrom (n + 1) xs :=
      rfl
    rw [he, List.flatMap_cons, List.flatMap_cons, ih (n + 1)]

theorem find_candidates_indexed_snd (spills : List SpillRecord)
    (vessels : List TrackPoint) (w : Int) :
    (find_candidates_indexed spills vessels w).map Prod.snd =
      find_candidates spills vessels w := by
  have h1 : (find_candidates_indexed spills vessels w).map Prod.snd =
      ((vessels.enum.flatMap (fun iv =>
        (spills.filter (fun s => within iv.2 s)).map
          (fun s => (iv.1, IncidentCandidate.mk iv.2 s)))).map Prod.snd).filter
        (temporalOk (timedeltaOfHours w)) :=
    (List.filter_map (p := temporalOk (timedeltaOfHours w)) Prod.snd
      (vessels.enum.flatMap (fun iv =>
        (spills.filter (fun s => within iv.2 s)).map
          (fun s => (iv.1, IncidentCandidate.mk iv.2 s))))).symm
  have h3 : (fun iv : Nat × TrackPoint =>
      ((spills.filter (fun s => within iv.2 s)).map
        (fun s => (iv.1, IncidentCandidate.mk iv.2 s))).map Prod.snd) =
      (fun iv : Nat × TrackPoint =>
        (spills.filter (fun s => within iv.2 s)).map
          (fun s => IncidentCandidate.mk iv.2 s)) := by
    funext iv
    rw [List.map_map]
    rfl
  have h2 : (vessels.enum.flatMap (fun iv =>
      (spills.filter (fun s => within iv.2 s)).map
        (fun s => (iv.1, IncidentCandidate.mk iv.2 s)))).map Prod.snd =
      vessels.flatMap (fun v =>
        (spills.filter (fun s => within v s)).map
          (fun s => IncidentCandidate.mk v s)) := by
    rw [List.map_flatMap, h3]
    exact flatMap_enumFrom_snd (fun v =>
      (spills.filter (fun s => within v s)).map
        (fun s => IncidentCandidate.mk v s)) vessels 0
  rw [h1, h2]
  rfl

/-- Claim C4 fails as stated on the code: in the overlapping-spills
scenario the selected label of SPILL-B is shared by a SPILL-A row, so the
label-based `.loc` lookup emits two rows for SPILL-A, one of which does
not attain SPILL-A's minimum `time_to_detection`. -/
theorem prime_suspect_selection_counterexample :
    ¬ ((prime_suspects_df exOverlapRows).countP
        (fun p => p.2.spill.spill_id == "SPILL-A") = 1) ∧
      ∃ p ∈ prime_suspects_df exOverlapRows,
        p.2.spill.spill_id = "SPILL-A" ∧
        ∃ q ∈ exOverlapRows, q.2.spill.spill_id = "SPILL-A" ∧
          time_to_detection q.2 < time_to_detection p.2 := by
  decide

/-- Claim C4 (amended): provided the candidate rows carry pairwise
distinct index labels (no track point matched to more than one spill),
then for each spill id occurring among the candidates the construction
selects exactly one row, that row attains the minimum `time_to_detection`
of the spill's rows, and under ties the selection is deterministic,
picking the first row of the group (pandas `idxmin` semantics).  With a
duplicated label the `.loc` lookup fans out instead, as the
counterexample shows. -/
theorem prime_suspect_selection (rows : List (Nat × IncidentCandidate))
    (sid : String)
    (hnd : rows.Pairwise (fun a b => a.1 ≠ b.1))
    (hsid : sid ∈ rows.map (fun p => p.2.spill.spill_id)) :
    ∃ q ∈ rows, q.2.spill.spill_id = sid ∧
      (∀ p ∈ rows, p.2.spill.spill_id = sid →
        time_to_detection q.2 ≤ time_to_detection p.2) ∧
      (∃ pre suf, rows.filter (fun p => p.2.spill.spill_id == sid) =
          pre ++ q :: suf ∧
        ∀ p ∈ pre, time_to_detection q.2 < time_to_detection p.2) ∧
      q ∈ prime_suspects_df rows ∧
      (prime_suspects_df rows).countP
        (fun p => p.2.spill.spill_id == sid) = 1 := by
  obtain ⟨c0, hc0, hc0id⟩ := List.mem_map.mp hsid
  have hc0grp : c0 ∈ rows.filter (fun p => p.2.spill.spill_id == sid) :=
    List.mem_filter.mpr ⟨hc0, by simp [hc0id]⟩
  obtain ⟨g0, rest, hgrp⟩ : ∃ g0 rest,
      rows.filter (fun p => p.2.spill.spill_id == sid) = g0 :: rest := by
    cases h : rows.filter (fun p => p.2.spill.spill_id == sid) with
    | nil =>
      rw [h] at hc0grp
      cases hc0grp
    | cons g0 rest => exact ⟨g0, rest, rfl⟩
  have hsome : idxminFirst (fun p => time_to_detection p.2)
      (rows.filter (fun p => p.2.spill.spill_id == sid)) =
      some (foldlMin (fun p => time_to_detection p.2) g0 rest) := by
    rw [hgrp]
    rfl
  obtain ⟨hmemg, hming, pre, suf, hsplit, hpre⟩ :=
    idxminFirst_spec (fun p => time_to_detection p.2)
      (rows.filter (fun p => p.2.spill.spill_id == sid))
      (foldlMin (fun p => time_to_detection p.2) g0 rest) hsome
  have hqrows : foldlMin (fun p => time_to_detection p.2) g0 rest ∈ rows :=
    (List.mem_filter.mp hmemg).1
  have hqid := idxmin_group_spill_id rows sid _ hsome
  have hpt : ∀ sid' ∈ spillIdsOf (rows.map Prod.snd),
      (match idxminFirst (fun p => time_to_detection p.2)
          (rows.filter (fun p => p.2.spill.spill_id == sid')) with
        | some p => rows.filter (fun q => q.1 == p.1)
        | none => []) =
      (idxminFirst (fun p => time_to_detection p.2)
        (rows.filter (fun p => p.2.spill.spill_id == sid'))).toList := by
    intro sid' hsid'
    cases hmin : idxminFirst (fun p => time_to_detection p.2)
        (rows.filter (fun p => p.2.spill.spill_id == sid')) with
    | none => rfl
    | some p =>
      have hprows : p ∈ rows :=
        (List.mem_filter.mp
          (idxminFirst_spec (fun p => time_to_detection p.2) _ p hmin).1).1
      exact filter_key_eq_singleton Prod.fst rows hnd p hprows
  have hdf : prime_suspects_df rows =
      (spillIdsOf (rows.map Prod.snd)).filterMap (fun sid' =>
        idxminFirst (fun p => time_to_detection p.2)
          (rows.filter (fun p => p.2.spill.spill_id == sid'))) := by
    unfold prime_suspects_df
    exact flatMap_eq_filterMap _ _ _ hpt
  have hsidIn : sid ∈ spillIdsOf (rows.map Prod.snd) := by
    have hsid2 : sid ∈ (rows.map Prod.snd).map (fun c => c.spill.spill_id) := by
      rw [List.map_map]
      exact hsid
    obtain ⟨y, hy, hyid⟩ := dropDupBy_covers id []
      ((rows.map Prod.snd).map (fun c => c.spill.spill_id)) sid hsid2 (by simp)
    exact (show y = sid from hyid) ▸ hy
  have hcount := countP_filterMap_key_one
    (fun p : Nat × IncidentCandidate => p.2.spill.spill_id)
    (fun sid' => idxminFirst (fun p => time_to_detection p.2)
      (rows.filter (fun p => p.2.spill.spill_id == sid')))
    (fun s c h => idxmin_group_spill_id rows s c h)
    (spillIdsOf (rows.map Prod.snd)) (spillIdsOf_nodup _) sid hsidIn
    (foldlMin (fun p => time_to_detection p.2) g0 rest) hsome
  refine ⟨foldlMin (fun p => time_to_detection p.2) g0 rest,
    hqrows, hqid, ?_, ⟨pre, suf, hsplit, hpre⟩, ?_, ?_⟩
  · intro p hp hpid
    exact hming p (List.mem_filter.mpr ⟨hp, by simp [hpid]⟩)
  · rw [hdf]
    exact List.mem_filterMap.mpr ⟨sid, hsidIn, hsome⟩
  · rw [hdf]
    exact hcount

/-- Witness for claim C4's amended theorem: three distinctly-labelled
candidates for one spill at time-to-detection {3h, 1h, 5h}; the 1h row is
selected, and the full table evaluates to exactly that row. -/
theorem prime_suspect_selection_witness :
    (exIdx315.Pairwise (fun a b => a.1 ≠ b.1)) ∧
      ("2024-01-01_10:00:00" ∈ exIdx315.map (fun p => p.2.spill.spill_id)) ∧
      (∃ q ∈ exIdx315, q.2.spill.spill_id = "2024-01-01_10:00:00" ∧
        (∀ p ∈ exIdx315, p.2.spill.spill_id = "2024-01-01_10:00:00" →
          time_to_detection q.2 ≤ time_to_detection p.2) ∧
        (∃ pre suf, exIdx315.filter
            (fun p => p.2.spill.spill_id == "2024-01-01_10:00:00") =
            pre ++ q :: suf ∧
          ∀ p ∈ pre, time_to_detection q.2 < time_to_detection p.2) ∧
        q ∈ prime_suspects_df exIdx315 ∧
        (prime_suspects_df exIdx315).countP
          (fun p => p.2.spill.spill_id == "2024-01-01_10:00:00") = 1) ∧
      prime_suspects_df exIdx315 =
        [(1, IncidentCandidate.mk exPointB exSpill)] :=
  ⟨by decide, by decide,
    prime_suspect_selection exIdx315 "2024-01-01_10:00:00" (by decide)
      (by decide), by rfl⟩

theorem length_le_one_of_pairwise_ne {α : Type} (l : List α)
    (hpw : l.Pairwise (fun a b => a ≠ b)) (hall : ∀ a ∈ l, ∀ b ∈ l, a = b) :
    l.length ≤ 1 := by
  match l with
  | [] => simp
  | [a] => simp
  | a :: b :: t =>
    exact absurd (hall a (List.Mem.head _) b (List.mem_cons_of_mem _ (List.Mem.head _)))
      ((List.pairwise_cons.mp hpw).1 b (List.Mem.head _))

theorem sum_countP_over_keys {α κ : Type} [DecidableEq κ] [BEq κ] [LawfulBEq κ]
    (k : α → κ) :
    ∀ (keys : List κ) (l : List α), keys.Pairwise (fun a b => a ≠ b) →
      (∀ x ∈ l, k x ∈ keys) →
      (keys.map (fun m => l.countP (fun x => k x == m))).sum = l.length := by
  intro keys
  induction keys with
  | nil =>
    intro l _ hcov
    cases l with
    | nil => simp
    | cons x xs => exact absurd (hcov x (List.Mem.head _)) (by simp)
  | cons m keys' ih =>
    intro l hpw hcov
    have hpw' := List.pairwise_cons.mp hpw
    have hcount_eq : ∀ m' ∈ keys',
        l.countP (fun x => k x == m') =
          (l.filter (fun x => !(k x == m))).countP (fun x => k x == m') := by
      intro m' hm'
      rw [List.countP_filter]
      apply List.countP_congr
      intro x hx
      constructor
      · intro h
        have h1 : k x = m' := by simpa using h
        have h2 : m' ≠ m := Ne.symm (hpw'.1 m' hm')
        simp [h1, h2]
      · intro h
        simp only [Bool.and_eq_true] at h
        exact h.1
    have hcov' : ∀ x ∈ l.filter (fun x => !(k x == m)), k x ∈ keys' := by
      intro x hx
      obtain ⟨hxl, hxm⟩ := List.mem_filter.mp hx
      have : k x ≠ m := by simpa using hxm
      rcases List.mem_cons.mp (hcov x hxl) with h | h
      · exact absurd h this
      · exact h
    have hih := ih (l.filter (fun x => !(k x == m))) hpw'.2 hcov'
    rw [List.map_cons, List.sum_cons, List.map_congr_left hcount_eq, hih]
    have hlen : (l.filter (fun x => !(k x == m))).length =
        l.countP (fun x => !(k x == m)) :=
      (List.countP_eq_length_filter (p := fun x => !(k x == m)) l).symm
    rw [hlen]
    have := List.length_eq_countP_add_countP (p := fun x => k x == m) l
    have hnot : l.countP (fun x => !(k x == m)) =
        l.countP (fun x => ¬((k x == m) = true)) := by
      apply List.countP_congr
      intro x hx
      simp
    omega

theorem merge_left_names_sum (names : List (String × Option String)) :
    ∀ counts : List CountRow,
      (∀ r ∈ counts, (names.filter (fun q => q.1 == r.mmsi)).length = 1) →
      ((merge_left_names counts names).map (fun r => r.incident_count)).sum =
        (counts.map (fun r => r.incident_count)).sum := by
  intro counts
  induction counts with
  | nil => intro _; rfl
  | cons r rs ih =>
    intro h
    obtain ⟨n, hn⟩ := List.length_eq_one.mp (h r (List.Mem.head _))
    have hcons : merge_left_names (r :: rs) names =
        (if (names.filter (fun q => q.1 == r.mmsi)).isEmpty
         then [LeaderRow.mk r.mmsi r.incident_count none]
         else (names.filter (fun q => q.1 == r.mmsi)).map
           (fun n => LeaderRow.mk r.mmsi r.incident_count (some n.2)))
        ++ merge_left_names rs names := rfl
    rw [hcons, List.map_append, List.sum_append,
      ih (fun q hq => h q (List.mem_cons_of_mem _ hq)), hn]
    simp

/-- Claim C5 as stated is false on the code: a vessel recorded under two
different names keeps two rows in `ship_names` (deduplication is on the
whole (mmsi, vessel_name) pair), so the left-merge fans out and the
leaderboard's `incident_count` sum (here 4) exceeds the number of
UniqueIncident rows (here 2). -/
theorem leaderboard_sum_counterexample :
    ¬ ((ship_incident_counts exC5 true).map (fun r => r.incident_count)).sum =
        (unique_incidents exC5).length := by
  decide

/-- Claim C5 (amended): provided every mmsi carries a single `vessel_name`
value across the candidate rows (in particular whenever the `vessel_name`
column is absent), the sum of `incident_count` over the vessel count
leaderboard equals the number of UniqueIncident rows. -/
theorem leaderboard_sum_invariant (candidates : List IncidentCandidate)
    (hasNameCol : Bool)
    (hname : ∀ c1 ∈ candidates, ∀ c2 ∈ candidates,
      c1.vessel.mmsi = c2.vessel.mmsi →
        c1.vessel.vessel_name = c2.vessel.vessel_name) :
    ((ship_incident_counts candidates hasNameCol).map
        (fun r => r.incident_count)).sum =
      (unique_incidents candidates).length := by
  have huisub : ∀ c ∈ unique_incidents candidates, c ∈ candidates := fun c hc =>
    mem_of_mem_dropDupBy _ [] candidates c hc
  have hkeysnd : (mmsiKeysOf (unique_incidents candidates)).Pairwise
      (fun a b => a ≠ b) :=
    (List.Perm.nodup_iff (List.perm_insertionSort _ _)).mpr
      (dropDupBy_pairwise_keys id [] _)
  have hcov : ∀ c ∈ unique_incidents candidates,
      c.vessel.mmsi ∈ mmsiKeysOf (unique_incidents candidates) := by
    intro c hc
    obtain ⟨y, hy, hyid⟩ := dropDupBy_covers id []
      ((unique_incidents candidates).map (fun c => c.vessel.mmsi)) c.vessel.mmsi
      (List.mem_map_of_mem (fun c => c.vessel.mmsi) hc) (by simp)
    rw [mmsiKeysOf, List.mem_insertionSort]
    exact (show y = c.vessel.mmsi from hyid) ▸ hy
  have hsum1 : ((groupCounts (unique_incidents candidates)).map
      (fun r => r.incident_count)).sum = (unique_incidents candidates).length := by
    rw [groupCounts, List.map_map]
    exact sum_countP_over_keys (fun c : IncidentCandidate => c.vessel.mmsi) _ _
      hkeysnd hcov
  have hsum2 : ((sortByCountDesc (groupCounts (unique_incidents candidates))).map
      (fun r => r.incident_count)).sum = (unique_incidents candidates).length := by
    rw [← hsum1]
    exact List.Perm.sum_eq ((List.perm_insertionSort _ _).map _)
  cases hasNameCol with
  | false =>
    have hsh : ship_incident_counts candidates false =
        (sortByCountDesc (groupCounts (unique_incidents candidates))).map
          (fun r => LeaderRow.mk r.mmsi r.incident_count none) := rfl
    rw [hsh, List.map_map]
    exact hsum2
  | true =>
    have hsh : ship_incident_counts candidates true =
        merge_left_names
          (sortByCountDesc (groupCounts (unique_incidents candidates)))
          (ship_names (unique_incidents candidates)) := rfl
    rw [hsh]
    have h1 : ∀ r ∈ sortByCountDesc (groupCounts (unique_incidents candidates)),
        ((ship_names (unique_incidents candidates)).filter
          (fun q => q.1 == r.mmsi)).length = 1 := by
      intro r hr
      have hr' : r ∈ groupCounts (unique_incidents candidates) :=
        (List.perm_insertionSort _ _).mem_iff.mp hr
      obtain ⟨m, hm, hrm⟩ := List.mem_map.mp hr'
      have hrmmsi : r.mmsi = m := by rw [← hrm]
      obtain ⟨c, hcui, hcm⟩ := List.mem_map.mp
        (mem_of_mem_dropDupBy id [] _ m ((List.perm_insertionSort _ _).mem_iff.mp hm))
      obtain ⟨y, hy, hyk⟩ := dropDupBy_covers id []
        ((unique_incidents candidates).map
          (fun d => (d.vessel.mmsi, d.vessel.vessel_name)))
        (c.vessel.mmsi, c.vessel.vessel_name)
        (List.mem_map_of_mem (fun d => (d.vessel.mmsi, d.vessel.vessel_name)) hcui)
        (by simp)
      have hyfil : y ∈ (ship_names (unique_incidents candidates)).filter
          (fun q => q.1 == r.mmsi) := by
        refine List.mem_filter.mpr ⟨hy, ?_⟩
        rw [show y = (c.vessel.mmsi, c.vessel.vessel_name) from hyk]
        simp [hcm, hrmmsi]
      have hpwf : ((ship_names (unique_incidents candidates)).filter
          (fun q => q.1 == r.mmsi)).Pairwise (fun a b => a ≠ b) :=
        List.Pairwise.filter _ (dropDupBy_pairwise_keys id [] _)
      have halleq : ∀ a ∈ (ship_names (unique_incidents candidates)).filter
            (fun q => q.1 == r.mmsi),
          ∀ b ∈ (ship_names (unique_incidents candidates)).filter
            (fun q => q.1 == r.mmsi), a = b := by
        intro a ha b hb
        obtain ⟨haN, haK⟩ := List.mem_filter.mp ha
        obtain ⟨hbN, hbK⟩ := List.mem_filter.mp hb
        obtain ⟨ca, hca, hcaeq⟩ := List.mem_map.mp
          (mem_of_mem_dropDupBy id [] _ a haN)
        obtain ⟨cb, hcb, hcbeq⟩ := List.mem_map.mp
          (mem_of_mem_dropDupBy id [] _ b hbN)
        have ha1 : a.1 = r.mmsi := by simpa using haK
        have hb1 : b.1 = r.mmsi := by simpa using hbK
        have hamm : ca.vessel.mmsi = r.mmsi := by
          rw [← ha1, ← hcaeq]
        have hbmm : cb.vessel.mmsi = r.mmsi := by
          rw [← hb1, ← hcbeq]
        have hmmeq : ca.vessel.mmsi = cb.vessel.mmsi := by rw [hamm, hbmm]
        have hnmeq : ca.vessel.vessel_name = cb.vessel.vessel_name :=
          hname ca (huisub ca hca) cb (huisub cb hcb) hmmeq
        rw [← hcaeq, ← hcbeq, hmmeq, hnmeq]
      exact Nat.le_antisymm
        (length_le_one_of_pairwise_ne _ hpwf halleq)
        (List.length_pos_of_mem hyfil)
    rw [merge_left_names_sum _ _ h1]
    exact hsum2

/-- Witness for claim C5's amended theorem: same data as the counterexample
but with a consistent name per mmsi; the sum invariant holds. -/
theorem leaderboard_sum_invariant_witness :
    (∀ c1 ∈ exC5ok, ∀ c2 ∈ exC5ok, c1.vessel.mmsi = c2.vessel.mmsi →
        c1.vessel.vessel_name = c2.vessel.vessel_name) ∧
      ((ship_incident_counts exC5ok true).map (fun r => r.incident_count)).sum =
        (unique_incidents exC5ok).length :=
  ⟨by decide, leaderboard_sum_invariant exC5ok true (by decide)⟩

theorem rawSpills_contains (f : RawSpills) :
    (f.columns.contains "slick_name" = f.hasSlickName) ∧
      (f.columns.contains "area_sys" = f.hasAreaSys) := by
  rcases f with ⟨h1, h2, h3, h4, rows⟩
  cases h1 <;> cases h2 <;> cases h3 <;> cases h4 <;> exact ⟨rfl, rfl⟩

theorem rawAis_contains (f : RawAis) :
    (f.columns.contains "mmsi" = f.hasMmsi) ∧
      (f.columns.contains "latitude" = f.hasLatitude) ∧
      (f.columns.contains "longitude" = f.hasLongitude) ∧
      (f.columns.contains "BaseDateTime" = f.hasBaseDateTime) := by
  rcases f with ⟨h1, h2, h3, h4, h5, rows⟩
  cases h1 <;> cases h2 <;> cases h3 <;> cases h4 <;> cases h5 <;>
    exact ⟨rfl, rfl, rfl, rfl⟩

theorem length_filterMap_eq_countP {α β : Type} (g : α → Option β)
    (l : List α) :
    (l.filterMap g).length = l.countP (fun a => (g a).isSome) := by
  induction l with
  | nil => rfl
  | cons x xs ih =>
    cases hx : g x <;>
      simp [List.filterMap_cons, hx, List.countP_cons, ih]

theorem mem_spillsMissing (f : RawSpills) (col : String)
    (h1 : col ∈ spillsRequiredCols) (h2 : f.columns.contains col = false) :
    col ∈ spillsMissing f :=
  List.mem_filter.mpr ⟨h1, by rw [h2]; rfl⟩

theorem mem_aisMissing (f : RawAis) (col : String)
    (h1 : col ∈ aisRequiredCols) (h2 : f.columns.contains col = false) :
    col ∈ aisMissing f :=
  List.mem_filter.mpr ⟨h1, by rw [h2]; rfl⟩

theorem isEmpty_false_of_mem {α : Type} {l : List α} {a : α} (h : a ∈ l) :
    l.isEmpty = false := by
  cases l with
  | nil => cases h
  | cons x xs => rfl

theorem load_spills_schema_error (fs : RawSpills)
    (hne : (spillsMissing fs).isEmpty = false) :
    load_spills_data fs =
      Except.error (LoadError.schemaError (spillsMissing fs)) := by
  unfold load_spills_data
  rw [hne]
  rfl

theorem load_ais_schema_error (fa : RawAis)
    (hne : (aisMissing fa).isEmpty = false) :
    load_ais_data fa =
      Except.error (LoadError.schemaError (aisMissing fa)) := by
  unfold load_ais_data
  rw [hne]
  rfl

theorem pipeline_none_of_spills_error (fs : RawSpills) (fa : RawAis) (w : Int)
    (e : LoadError) (h : load_spills_data fs = Except.error e) :
    pipeline fs fa w = none := by
  unfold pipeline
  rw [h]

theorem pipeline_none_of_ais_error (fs : RawSpills) (fa : RawAis) (w : Int)
    (e : LoadError) (h : load_ais_data fa = Except.error e) :
    pipeline fs fa w = none := by
  unfold pipeline
  rw [h]
  cases load_spills_data fs with
  | error e2 => rfl
  | ok v => rfl

/-- Claim C7: spill normalization fails with a schema error naming the
missing field(s) when `slick_name` or `area_sys` is absent, track
normalization fails with a schema error when any of `mmsi`, `latitude`,
`longitude`, `BaseDateTime` is absent, and in either case the pipeline
halts before matching. -/
theorem schema_validation (fs : RawSpills) (fa : RawAis) (w : Int) :
    ((fs.hasSlickName = false ∨ fs.hasAreaSys = false) →
      load_spills_data fs =
          Except.error (LoadError.schemaError (spillsMissing fs)) ∧
        (fs.hasSlickName = false → "slick_name" ∈ spillsMissing fs) ∧
        (fs.hasAreaSys = false → "area_sys" ∈ spillsMissing fs) ∧
        (∀ c ∈ spillsMissing fs, c ∈ spillsRequiredCols ∧
          fs.columns.contains c = false) ∧
        pipeline fs fa w = none) ∧
    ((fa.hasMmsi = false ∨ fa.hasLatitude = false ∨ fa.hasLongitude = false ∨
        fa.hasBaseDateTime = false) →
      load_ais_data fa =
          Except.error (LoadError.schemaError (aisMissing fa)) ∧
        (fa.hasMmsi = false → "mmsi" ∈ aisMissing fa) ∧
        (fa.hasLatitude = false → "latitude" ∈ aisMissing fa) ∧
        (fa.hasLongitude = false → "longitude" ∈ aisMissing fa) ∧
        (fa.hasBaseDateTime = false → "BaseDateTime" ∈ aisMissing fa) ∧
        (∀ c ∈ aisMissing fa, c ∈ aisRequiredCols ∧
          fa.columns.contains c = false) ∧
        pipeline fs fa w = none) := by
  constructor
  · intro hmiss
    have hc := rawSpills_contains fs
    have hne : (spillsMissing fs).isEmpty = false := by
      rcases hmiss with h | h
      · exact isEmpty_false_of_mem
          (mem_spillsMissing fs "slick_name" (by decide) (hc.1.trans h))
      · exact isEmpty_false_of_mem
          (mem_spillsMissing fs "area_sys" (by decide) (hc.2.trans h))
    have hload := load_spills_schema_error fs hne
    refine ⟨hload, ?_, ?_, ?_, pipeline_none_of_spills_error fs fa w _ hload⟩
    · intro h
      exact mem_spillsMissing fs "slick_name" (by decide) (hc.1.trans h)
    · intro h
      exact mem_spillsMissing fs "area_sys" (by decide) (hc.2.trans h)
    · intro c hcm
      obtain ⟨h1, h2⟩ := List.mem_filter.mp hcm
      refine ⟨h1, ?_⟩
      revert h2
      cases fs.columns.contains c <;> simp
  · intro hmiss
    have hc := rawAis_contains fa
    have hne : (aisMissing fa).isEmpty = false := by
      rcases hmiss with h | h | h | h
      · exact isEmpty_false_of_mem
          (mem_aisMissing fa "mmsi" (by decide) (hc.1.trans h))
      · exact isEmpty_false_of_mem
          (mem_aisMissing fa "latitude" (by decide) (hc.2.1.trans h))
      · exact isEmpty_false_of_mem
          (mem_aisMissing fa "longitude" (by decide) (hc.2.2.1.trans h))
      · exact isEmpty_false_of_mem
          (mem_aisMissing fa "BaseDateTime" (by decide) (hc.2.2.2.trans h))
    have hload := load_ais_schema_error fa hne
    refine ⟨hload, ?_, ?_, ?_, ?_, ?_, pipeline_none_of_ais_error fs fa w _ hload⟩
    · intro h
      exact mem_aisMissing fa "mmsi" (by decide) (hc.1.trans h)
    · intro h
      exact mem_aisMissing fa "latitude" (by decide) (hc.2.1.trans h)
    · intro h
      exact mem_aisMissing fa "longitude" (by decide) (hc.2.2.1.trans h)
    · intro h
      exact mem_aisMissing fa "BaseDateTime" (by decide) (hc.2.2.2.trans h)
    · intro c hcm
      obtain ⟨h1, h2⟩ := List.mem_filter.mp hcm
      refine ⟨h1, ?_⟩
      revert h2
      cases fa.columns.contains c <;> simp

/-- Witness for claim C7's theorem: a spill frame without `slick_name` and
an AIS frame without `mmsi`. -/
theorem schema_validation_witness :
    (exBadSpills.hasSlickName = false ∨ exBadSpills.hasAreaSys = false) ∧
      (load_spills_data exBadSpills =
          Except.error (LoadError.schemaError (spillsMissing exBadSpills)) ∧
        (exBadSpills.hasSlickName = false →
          "slick_name" ∈ spillsMissing exBadSpills) ∧
        (exBadSpills.hasAreaSys = false →
          "area_sys" ∈ spillsMissing exBadSpills) ∧
        (∀ c ∈ spillsMissing exBadSpills, c ∈ spillsRequiredCols ∧
          exBadSpills.columns.contains c = false) ∧
        pipeline exBadSpills exBadAis 24 = none) ∧
      (exBadAis.hasMmsi = false ∨ exBadAis.hasLatitude = false ∨
        exBadAis.hasLongitude = false ∨ exBadAis.hasBaseDateTime = false) ∧
      (load_ais_data exBadAis =
          Except.error (LoadError.schemaError (aisMissing exBadAis)) ∧
        (exBadAis.hasMmsi = false → "mmsi" ∈ aisMissing exBadAis) ∧
        (exBadAis.hasLatitude = false → "latitude" ∈ aisMissing exBadAis) ∧
        (exBadAis.hasLongitude = false → "longitude" ∈ aisMissing exBadAis) ∧
        (exBadAis.hasBaseDateTime = false →
          "BaseDateTime" ∈ aisMissing exBadAis) ∧
        (∀ c ∈ aisMissing exBadAis, c ∈ aisRequiredCols ∧
          exBadAis.columns.contains c = false) ∧
        pipeline exBadSpills exBadAis 24 = none) :=
  ⟨Or.inl rfl, (schema_validation exBadSpills exBadAis 24).1 (Or.inl rfl),
   Or.inl rfl, (schema_validation exBadSpills exBadAis 24).2 (Or.inl rfl)⟩

theorem load_spills_ok_inv (fs : RawSpills) (out : List SpillRecord)
    (failed : Nat) (hok : load_spills_data fs = Except.ok (out, failed)) :
    out = spillsKept fs ∧
      failed = fs.rows.countP (fun r => (spillResolve fs r).isNone) ∧
      (spillsKept fs).isEmpty = false := by
  unfold load_spills_data at hok
  cases hm : (spillsMissing fs).isEmpty with
  | false =>
    rw [hm] at hok
    simp at hok
  | true =>
    rw [hm] at hok
    cases hk : (spillsKept fs).isEmpty with
    | true =>
      rw [hk] at hok
      simp at hok
    | false =>
      rw [hk] at hok
      simp only [if_true, Bool.false_eq_true, if_false, Except.ok.injEq,
        Prod.mk.injEq] at hok
      exact ⟨hok.1.symm, hok.2.symm, rfl⟩

/-- Claim C8: with the schema satisfied, every retained record's
`detection_date` is the date+time parse when both explicit columns are
present, and the identifier-pattern parse otherwise; the reported count is
the number of rows whose resolved timestamp failed to parse; and if no row
resolves, the normalization fails with the empty-dataset error rather than
returning an empty sequence. -/
theorem spill_timestamp_resolution (fs : RawSpills)
    (h1 : fs.hasSlickName = true) (h2 : fs.hasAreaSys = true) :
    (∀ out failed, load_spills_data fs = Except.ok (out, failed) →
      (∀ rec ∈ out, ∃ r ∈ fs.rows, rec.spill_id = r.slick_name ∧
        rec.area_sq_km = r.area_sys ∧
        spillResolve fs r = some rec.detection_date ∧
        ((fs.hasDateCol && fs.hasTimeCol) = true →
          r.dateTimeParsed = some rec.detection_date) ∧
        ((fs.hasDateCol && fs.hasTimeCol) = false →
          r.idParsed = some rec.detection_date)) ∧
      failed = fs.rows.countP (fun r => (spillResolve fs r).isNone) ∧
      out ≠ []) ∧
    ((∀ r ∈ fs.rows, spillResolve fs r = none) →
      load_spills_data fs = Except.error LoadError.emptyDataset) := by
  have hm : spillsMissing fs = [] := by
    rcases fs with ⟨b1, b2, b3, b4, rows⟩
    have hb1 : b1 = true := h1
    have hb2 : b2 = true := h2
    subst hb1
    subst hb2
    rfl
  constructor
  · intro out failed hok
    obtain ⟨ho, hf, hkne⟩ := load_spills_ok_inv fs out failed hok
    refine ⟨?_, hf, ?_⟩
    · intro rec hrec
      rw [ho] at hrec
      obtain ⟨r, hr, hgr⟩ := List.mem_filterMap.mp hrec
      cases hres : spillResolve fs r with
      | none =>
        rw [hres] at hgr
        exact absurd hgr (by simp)
      | some t =>
        rw [hres] at hgr
        have heq : SpillRecord.mk r.slick_name r.area_sys t r.geometry = rec := by
          simpa using hgr
        refine ⟨r, hr, ?_, ?_, ?_, ?_, ?_⟩
        · rw [← heq]
        · rw [← heq]
        · rw [← heq]
          exact hres
        · intro hb
          have hthis : r.dateTimeParsed = some t := by
            have h' := hres
            unfold spillResolve at h'
            rw [hb] at h'
            simpa using h'
          rw [← heq]
          exact hthis
        · intro hb
          have hthis : r.idParsed = some t := by
            have h' := hres
            unfold spillResolve at h'
            rw [hb] at h'
            simpa using h'
          rw [← heq]
          exact hthis
    · intro hnil
      have hke : (spillsKept fs).isEmpty = true := by
        rw [← ho, hnil]
        rfl
      rw [hke] at hkne
      exact Bool.noConfusion hkne
  · intro hall
    have hkept : spillsKept fs = [] :=
      List.filterMap_eq_nil_iff.mpr (fun r hr => by rw [hall r hr]; rfl)
    unfold load_spills_data
    rw [hm, hkept]
    rfl

/-- Witness for claim C8's theorem at a concrete two-row frame (one row
parses, one does not). -/
theorem spill_timestamp_resolution_witness :
    (exRawSpills.hasSlickName = true) ∧ (exRawSpills.hasAreaSys = true) ∧
      ((∀ out failed, load_spills_data exRawSpills = Except.ok (out, failed) →
        (∀ rec ∈ out, ∃ r ∈ exRawSpills.rows, rec.spill_id = r.slick_name ∧
          rec.area_sq_km = r.area_sys ∧
          spillResolve exRawSpills r = some rec.detection_date ∧
          ((exRawSpills.hasDateCol && exRawSpills.hasTimeCol) = true →
            r.dateTimeParsed = some rec.detection_date) ∧
          ((exRawSpills.hasDateCol && exRawSpills.hasTimeCol) = false →
            r.idParsed = some rec.detection_date)) ∧
        failed = exRawSpills.rows.countP
          (fun r => (spillResolve exRawSpills r).isNone) ∧
        out ≠ []) ∧
      ((∀ r ∈ exRawSpills.rows, spillResolve exRawSpills r = none) →
        load_spills_data exRawSpills = Except.error LoadError.emptyDataset)) :=
  ⟨rfl, rfl, spill_timestamp_resolution exRawSpills rfl rfl⟩

/-- Claim C10 (implicit): with both `date` and `time` columns present, a
row whose combined date+time string fails to parse is dropped even when
its identifier embeds a valid timestamp — the output size counts exactly
the rows with a date+time parse, every retained detection date comes from
the date+time parse, and the identifier parse is never consulted. -/
theorem no_per_record_fallback (fs : RawSpills)
    (hd : fs.hasDateCol = true) (ht : fs.hasTimeCol = true)
    (out : List SpillRecord) (failed : Nat)
    (hok : load_spills_data fs = Except.ok (out, failed)) :
    out.length = fs.rows.countP (fun r => r.dateTimeParsed.isSome) ∧
      (∀ rec ∈ out, ∃ r ∈ fs.rows,
        r.dateTimeParsed = some rec.detection_date) ∧
      (∀ r : RawSpillRow, spillResolve fs r = r.dateTimeParsed) := by
  have hres : ∀ r : RawSpillRow, spillResolve fs r = r.dateTimeParsed := by
    intro r
    unfold spillResolve
    rw [hd, ht]
    rfl
  obtain ⟨ho, hf, hkne⟩ := load_spills_ok_inv fs out failed hok
  refine ⟨?_, ?_, hres⟩
  · rw [ho]
    unfold spillsKept
    rw [length_filterMap_eq_countP]
    apply List.countP_congr
    intro r hr
    simp [hres r]
  · intro rec hrec
    rw [ho] at hrec
    obtain ⟨r, hr, hgr⟩ := List.mem_filterMap.mp hrec
    cases hresr : spillResolve fs r with
    | none =>
      rw [hresr] at hgr
      exact absurd hgr (by simp)
    | some t =>
      rw [hresr] at hgr
      have heq : SpillRecord.mk r.slick_name r.area_sys t r.geometry = rec := by
        simpa using hgr
      refine ⟨r, hr, ?_⟩
      rw [← heq, ← hres r]
      exact hresr

/-- Witness for claim C10's theorem: of the two rows of `exRawSpills` only
the first survives (the second's identifier parses but is never used). -/
theorem no_per_record_fallback_witness :
    (exRawSpills.hasDateCol = true) ∧ (exRawSpills.hasTimeCol = true) ∧
      (load_spills_data exRawSpills =
        Except.ok ([SpillRecord.mk "2024-01-01_10:00:00" 5 36000 rect2], 1)) ∧
      ([SpillRecord.mk "2024-01-01_10:00:00" 5 36000 rect2].length =
          exRawSpills.rows.countP (fun r => r.dateTimeParsed.isSome) ∧
        (∀ rec ∈ [SpillRecord.mk "2024-01-01_10:00:00" 5 36000 rect2],
          ∃ r ∈ exRawSpills.rows,
            r.dateTimeParsed = some rec.detection_date) ∧
        (∀ r : RawSpillRow,
          spillResolve exRawSpills r = r.dateTimeParsed)) :=
  ⟨rfl, rfl, rfl, no_per_record_fallback exRawSpills rfl rfl
    [SpillRecord.mk "2024-01-01_10:00:00" 5 36000 rect2] 1 rfl⟩

theorem foldl_min_le_timestamp (xs : List TrackPoint) :
    ∀ a : Int, xs.foldl (fun b q => min b q.timestamp) a ≤ a ∧
      ∀ p ∈ xs, xs.foldl (fun b q => min b q.timestamp) a ≤ p.timestamp := by
  induction xs with
  | nil =>
    intro a
    exact ⟨le_refl a, by simp⟩
  | cons x xs ih =>
    intro a
    obtain ⟨iha, ihm⟩ := ih (min a x.timestamp)
    rw [List.foldl_cons]
    constructor
    · exact le_trans iha (min_le_left _ _)
    · intro p hp
      rcases List.mem_cons.mp hp with h | h
      · subst h
        exact le_trans iha (min_le_right _ _)
      · exact ihm p h

theorem foldl_max_ge_timestamp (xs : List TrackPoint) :
    ∀ a : Int, a ≤ xs.foldl (fun b q => max b q.timestamp) a ∧
      ∀ p ∈ xs, p.timestamp ≤ xs.foldl (fun b q => max b q.timestamp) a := by
  induction xs with
  | nil =>
    intro a
    exact ⟨le_refl a, by simp⟩
  | cons x xs ih =>
    intro a
    obtain ⟨iha, ihm⟩ := ih (max a x.timestamp)
    rw [List.foldl_cons]
    constructor
    · exact le_trans (le_max_left _ _) iha
    · intro p hp
      rcases List.mem_cons.mp hp with h | h
      · subst h
        exact le_trans (le_max_right _ _) iha
      · exact ihm p h

theorem minTimestamp_le (l : List TrackPoint) :
    ∀ p ∈ l, minTimestamp l ≤ p.timestamp := by
  intro p hp
  cases l with
  | nil => cases hp
  | cons x xs =>
    unfold minTimestamp
    obtain ⟨ha, hm⟩ := foldl_min_le_timestamp xs x.timestamp
    rcases List.mem_cons.mp hp with h | h
    · subst h
      exact ha
    · exact hm p h

theorem maxTimestamp_ge (l : List TrackPoint) :
    ∀ p ∈ l, p.timestamp ≤ maxTimestamp l := by
  intro p hp
  cases l with
  | nil => cases hp
  | cons x xs =>
    unfold maxTimestamp
    obtain ⟨ha, hm⟩ := foldl_max_ge_timestamp xs x.timestamp
    rcases List.mem_cons.mp hp with h | h
    · subst h
      exact ha
    · exact hm p h

theorem trackFeatureFor_eq (vessels : List TrackPoint) (hN : Bool)
    (m : String) :
    trackFeatureFor vessels hN m =
      (if 1 < (sortByTimestamp (vessels.filter (fun v => v.mmsi == m))).length
       then some (TrackFeature.mk m
          ((sortByTimestamp (vessels.filter (fun v => v.mmsi == m))).map
            (fun p => (p.longitude, p.latitude)))
          (if hN then
              (sortByTimestamp (vessels.filter (fun v => v.mmsi == m))).head?.bind
                (fun p => p.vessel_name)
            else some ("MMSI: " ++ m))
          (minTimestamp (sortByTimestamp (vessels.filter (fun v => v.mmsi == m))))
          (maxTimestamp (sortByTimestamp (vessels.filter (fun v => v.mmsi == m)))))
       else none) := rfl

theorem trackFeatureFor_mmsi (vessels : List TrackPoint) (hN : Bool)
    (m : String) (feat : TrackFeature)
    (h : trackFeatureFor vessels hN m = some feat) : feat.mmsi = m := by
  by_cases hlen :
      1 < (sortByTimestamp (vessels.filter (fun v => v.mmsi == m))).length
  · rw [trackFeatureFor_eq, if_pos hlen] at h
    cases h
    rfl
  · rw [trackFeatureFor_eq, if_neg hlen] at h
    cases h

/-- Claim C9: for each vessel id among the candidates, the emitted polyline
holds all of that vessel's points from the full normalized track set
(a permutation of the filter), ordered by timestamp ascending, with the
vessel name (or the fallback label when the column is absent) and the
start/end times bounding every point; exactly one feature is emitted per
such vessel; a vessel with fewer than two points yields no feature and is
silently omitted. -/
theorem track_reconstruction (vessels : List TrackPoint)
    (candidates : List IncidentCandidate) (hasNameCol : Bool) (m : String)
    (hm : m ∈ candidates.map (fun c => c.vessel.mmsi)) :
    (1 < (sortByTimestamp (vessels.filter (fun v => v.mmsi == m))).length →
      ∃ feat ∈ plot_vessel_tracks vessels candidates hasNameCol,
        feat.mmsi = m ∧
        feat.coordinates =
          (sortByTimestamp (vessels.filter (fun v => v.mmsi == m))).map
            (fun p => (p.longitude, p.latitude)) ∧
        List.Perm (sortByTimestamp (vessels.filter (fun v => v.mmsi == m)))
          (vessels.filter (fun v => v.mmsi == m)) ∧
        List.Pairwise (fun a b => a.timestamp ≤ b.timestamp)
          (sortByTimestamp (vessels.filter (fun v => v.mmsi == m))) ∧
        feat.vessel_name = (if hasNameCol then
            (sortByTimestamp (vessels.filter (fun v => v.mmsi == m))).head?.bind
              (fun p => p.vessel_name)
          else some ("MMSI: " ++ m)) ∧
        feat.start_time =
          minTimestamp (sortByTimestamp (vessels.filter (fun v => v.mmsi == m))) ∧
        feat.end_time =
          maxTimestamp (sortByTimestamp (vessels.filter (fun v => v.mmsi == m))) ∧
        (∀ p ∈ sortByTimestamp (vessels.filter (fun v => v.mmsi == m)),
          feat.start_time ≤ p.timestamp ∧ p.timestamp ≤ feat.end_time) ∧
        (plot_vessel_tracks vessels candidates hasNameCol).countP
          (fun f => f.mmsi == m) = 1) ∧
    ((sortByTimestamp (vessels.filter (fun v => v.mmsi == m))).length ≤ 1 →
      ∀ feat ∈ plot_vessel_tracks vessels candidates hasNameCol,
        feat.mmsi ≠ m) := by
  have hmC : m ∈ candidateMmsis candidates := by
    obtain ⟨y, hy, hyid⟩ := dropDupBy_covers id []
      (candidates.map (fun c => c.vessel.mmsi)) m hm (by simp)
    exact (show y = m from hyid) ▸ hy
  have hnd : (candidateMmsis candidates).Pairwise (fun a b => a ≠ b) :=
    dropDupBy_pairwise_keys id [] _
  constructor
  · intro hlen
    have hg : trackFeatureFor vessels hasNameCol m =
        some (TrackFeature.mk m
          ((sortByTimestamp (vessels.filter (fun v => v.mmsi == m))).map
            (fun p => (p.longitude, p.latitude)))
          (if hasNameCol then
              (sortByTimestamp (vessels.filter (fun v => v.mmsi == m))).head?.bind
                (fun p => p.vessel_name)
            else some ("MMSI: " ++ m))
          (minTimestamp (sortByTimestamp (vessels.filter (fun v => v.mmsi == m))))
          (maxTimestamp (sortByTimestamp (vessels.filter (fun v => v.mmsi == m))))) := by
      rw [trackFeatureFor_eq, if_pos hlen]
    refine ⟨_, List.mem_filterMap.mpr ⟨m, hmC, hg⟩, rfl, rfl, ?_, ?_, rfl, rfl,
      rfl, ?_, ?_⟩
    · exact List.perm_insertionSort _ _
    · haveI : IsTotal TrackPoint (fun a b => a.timestamp ≤ b.timestamp) :=
        ⟨fun a b => le_total _ _⟩
      haveI : IsTrans TrackPoint (fun a b => a.timestamp ≤ b.timestamp) :=
        ⟨fun a b c hab hbc => le_trans hab hbc⟩
      exact List.sorted_insertionSort _ _
    · intro p hp
      exact ⟨minTimestamp_le _ p hp, maxTimestamp_ge _ p hp⟩
    · exact countP_filterMap_key_one (fun f => f.mmsi)
        (trackFeatureFor vessels hasNameCol)
        (fun s c h => trackFeatureFor_mmsi vessels hasNameCol s c h)
        (candidateMmsis candidates) hnd m hmC _ hg
  · intro hlen2 feat hfeat hfm
    obtain ⟨b, hb, hgb⟩ := List.mem_filterMap.mp hfeat
    have hbm : b = m := by
      rw [← trackFeatureFor_mmsi vessels hasNameCol b feat hgb, hfm]
    subst hbm
    rw [trackFeatureFor_eq, if_neg (not_lt.mpr hlen2)] at hgb
    cases hgb

/-- Witness for claim C9's theorem: vessel "7" has two points (out of
order in the input) and gets exactly one feature; vessel "8" has a single
point and is omitted, as the explicit evaluation of the full output
shows. -/
theorem track_reconstruction_witness :
    ("7" ∈ exCandidates9.map (fun c => c.vessel.mmsi)) ∧
      (1 < (sortByTimestamp (exVessels9.filter (fun v => v.mmsi == "7"))).length) ∧
      (∃ feat ∈ plot_vessel_tracks exVessels9 exCandidates9 true,
        feat.mmsi = "7" ∧
        feat.coordinates =
          (sortByTimestamp (exVessels9.filter (fun v => v.mmsi == "7"))).map
            (fun p => (p.longitude, p.latitude)) ∧
        List.Perm (sortByTimestamp (exVessels9.filter (fun v => v.mmsi == "7")))
          (exVessels9.filter (fun v => v.mmsi == "7")) ∧
        List.Pairwise (fun a b => a.timestamp ≤ b.timestamp)
          (sortByTimestamp (exVessels9.filter (fun v => v.mmsi == "7"))) ∧
        feat.vessel_name = (if true then
            (sortByTimestamp (exVessels9.filter (fun v => v.mmsi == "7"))).head?.bind
              (fun p => p.vessel_name)
          else some ("MMSI: " ++ "7")) ∧
        feat.start_time =
          minTimestamp (sortByTimestamp (exVessels9.filter (fun v => v.mmsi == "7"))) ∧
        feat.end_time =
          maxTimestamp (sortByTimestamp (exVessels9.filter (fun v => v.mmsi == "7"))) ∧
        (∀ p ∈ sortByTimestamp (exVessels9.filter (fun v => v.mmsi == "7")),
          feat.start_time ≤ p.timestamp ∧ p.timestamp ≤ feat.end_time) ∧
        (plot_vessel_tracks exVessels9 exCandidates9 true).countP
          (fun f => f.mmsi == "7") = 1) ∧
      plot_vessel_tracks exVessels9 exCandidates9 true =
        [TrackFeature.mk "7" [(1, 1), (2, 2)] (some "SEVEN") 32400 36000] :=
  ⟨by decide, by decide,
    (track_reconstruction exVessels9 exCandidates9 true "7" (by decide)).1
      (by decide), by rfl⟩
